import Mathlib

/-!
Verification of the grid-adjacency analysis core of `scripts/analyze_grid_adjacency.py`.

The script places the numbers 1..49 on a 10-row by 5-column board
(number n sits at row (n-1) % 10 + 1, column (n-1) / 10 + 1; the cell
(row 10, column 5) would be 50 and is excluded), builds Chebyshev
neighborhoods under a clipped or toroidal topology, unions them over the
seed numbers of the previous draw, and scores the current draw's hits
against a hypergeometric null model.

Modelling choices: Python integers become `ℤ` (Python's `//` and `%` with a
positive divisor agree with Lean's Euclidean `/` and `%` on `ℤ`); Python
floats become exact rationals `ℚ`; Python sets of numbers become `Finset ℤ`;
the float value nan that the aggregator returns for an undefined z-score is
modelled as `none` in an `Option ℝ` (the defined branch divides by a real
square root, hence `ℝ` there).
-/

namespace MarkSix

/-- Board row count, `ROWS = 10` in the script. -/
def ROWS : ℤ := 10

/-- Board column count, `COLS = 5` in the script. -/
def COLS : ℤ := 5

/-- Valid-number population size, `POP_SIZE = 49` in the script. -/
def POP_SIZE : ℕ := 49

/-- `pos(n)` of the script: `(row, column)` with row `(n-1) % 10 + 1` and
column `(n-1) // 10 + 1`.  Total, as in the script: no range check. -/
def pos (n : ℤ) : ℤ × ℤ := ((n - 1) % 10 + 1, (n - 1) / 10 + 1)

/-- `num(r, c)` of the script: `(c-1)*10 + r`; may produce 50. -/
def num (r c : ℤ) : ℤ := (c - 1) * 10 + r

/-- `chebyshev_torus(a, b)` of the script: toroidal Chebyshev distance with
row size `ROWS` and column size `COLS`. -/
def chebyshev_torus (a b : ℤ × ℤ) : ℤ :=
  max (min |a.1 - b.1| (ROWS - |a.1 - b.1|)) (min |a.2 - b.2| (COLS - |a.2 - b.2|))

/-- `neighborhood(seed, radius, wrap)` of the script.  In wrap mode it tests
every number 1..49 against the toroidal distance; otherwise it enumerates the
bounding rectangle clipped to the board and keeps the numbers in 1..49. -/
def neighborhood (seed radius : ℤ) (wrap : Bool) : Finset ℤ :=
  if wrap then
    (Finset.Icc 1 49).filter fun n => chebyshev_torus (pos seed) (pos n) ≤ radius
  else
    ((Finset.Icc (max 1 ((pos seed).1 - radius)) (min ROWS ((pos seed).1 + radius)) ×ˢ
      Finset.Icc (max 1 ((pos seed).2 - radius)) (min COLS ((pos seed).2 + radius))).image
      fun rc => num rc.1 rc.2).filter fun n => 1 ≤ n ∧ n ≤ 49

/-- `union_neighborhood(seeds, radius, wrap, exclude_center)` of the script:
union of the seeds' neighborhoods, minus the seed set itself when
`exclude_center` is true. -/
def union_neighborhood (seeds : List ℤ) (radius : ℤ) (wrap exclude_center : Bool) :
    Finset ℤ :=
  let U := seeds.foldl (fun acc s => acc ∪ neighborhood s radius wrap) ∅
  if exclude_center then U \ seeds.toFinset else U

/-- The record `pair_stats` returns: union size `K`, hit count, and the
hypergeometric mean and variance (the script's keys `U_size`, `hits`,
`exp`, `var`). -/
structure PairResult where
  U_size : ℕ
  hits : ℕ
  exp : ℚ
  var : ℚ

/-- `pair_stats(prev_nums, curr_nums, radius, wrap, exclude_center)` of the
script: `K = |U|`, `hits = |curr ∩ U|`, `p = K/N`, `exp = n*p`,
`var = n*p*(1-p)*((N-n)/(N-1))` with `N = POP_SIZE` and `n = len(curr)`. -/
def pair_stats (prev_nums curr_nums : List ℤ) (radius : ℤ) (wrap exclude_center : Bool) :
    PairResult :=
  let U := union_neighborhood prev_nums radius wrap exclude_center
  let K := U.card
  let hits := (curr_nums.filter fun n => n ∈ U).length
  let N : ℚ := (POP_SIZE : ℚ)
  let n : ℚ := (curr_nums.length : ℚ)
  let p : ℚ := (K : ℚ) / N
  { U_size := K, hits := hits, exp := n * p, var := n * p * (1 - p) * ((N - n) / (N - 1)) }

/-- Sum of `hits` over a list of pair results (`total_hits` in `summarize`). -/
def total_hits (ps : List PairResult) : ℕ := (ps.map PairResult.hits).sum

/-- Sum of `exp` over a list of pair results (`total_exp` in `summarize`). -/
def total_exp (ps : List PairResult) : ℚ := (ps.map PairResult.exp).sum

/-- Sum of `var` over a list of pair results (`total_var` in `summarize`). -/
def total_var (ps : List PairResult) : ℚ := (ps.map PairResult.var).sum

/-- The z-score branch of `summarize`:
`z = (total_hits - total_exp) / sqrt(total_var) if total_var > 0 else nan`,
with the nan modelled as `none`. -/
noncomputable def zScore (ps : List PairResult) : Option ℝ :=
  if 0 < total_var ps then
    some (((total_hits ps : ℝ) - ((total_exp ps : ℚ) : ℝ)) / Real.sqrt ((total_var ps : ℚ) : ℝ))
  else none

/-- The summary record `summarize` returns for one configuration. -/
structure Summary where
  pairs : ℕ
  total_hits : ℕ
  total_exp : ℚ
  total_var : ℚ
  z_score : Option ℝ
  avg_hits_per_pair : ℚ
  avg_exp_per_pair : ℚ
  avg_U_size : ℚ
  avg_U_cover_pct : ℚ
  hist_hits : ℕ → ℕ

/-- `summarize(pairs)` of the script.  The averages divide by the number of
pairs; the hit histogram maps a hit count to its frequency. -/
noncomputable def summarize (ps : List PairResult) : Summary :=
  let avg_U : ℚ := ((ps.map fun p => ((p.U_size : ℚ))).sum) / (ps.length : ℚ)
  { pairs := ps.length
    total_hits := total_hits ps
    total_exp := total_exp ps
    total_var := total_var ps
    z_score := zScore ps
    avg_hits_per_pair := ((total_hits ps : ℚ)) / (ps.length : ℚ)
    avg_exp_per_pair := total_exp ps / (ps.length : ℚ)
    avg_U_size := avg_U
    avg_U_cover_pct := 100 * avg_U / (POP_SIZE : ℚ)
    hist_hits := fun k => (ps.filter fun p => p.hits = k).length }

/-- `theoretical_single_seed_size(radius, wrap)` of the script: the mean of
the neighborhood sizes over the 49 valid seed numbers. -/
def theoretical_single_seed_size (radius : ℤ) (wrap : Bool) : ℚ :=
  ((Finset.Icc (1 : ℤ) 49).sum fun s => ((neighborhood s radius wrap).card : ℚ)) / 49

/-- `analyze(draws, radius, wrap, exclude_center)` of the script: pair
statistics over consecutive draws, summarized, together with the theoretical
single-seed neighborhood size it attaches to the summary. -/
noncomputable def analyze (draws : List (List ℤ)) (radius : ℤ) (wrap exclude_center : Bool) :
    Summary × ℚ :=
  let ps := (draws.zip draws.tail).map fun pc => pair_stats pc.1 pc.2 radius wrap exclude_center
  (summarize ps, theoretical_single_seed_size radius wrap)

/-- The six fixed configurations of `main`, as (wrap, radius, exclude_center). -/
def configs : List (Bool × ℤ × Bool) :=
  [(false, 2, false), (false, 2, true), (false, 1, false),
   (true, 2, false), (true, 2, true), (true, 1, false)]

/-- The decision core of `main`: with fewer than two draws it returns before
any aggregation (`none`); otherwise it runs `analyze` once per configuration. -/
noncomputable def runPipeline (draws : List (List ℤ)) : Option (List (Summary × ℚ)) :=
  if draws.length < 2 then none
  else some (configs.map fun c => analyze draws c.2.1 c.1 c.2.2)

/-! ### Helper lemmas about the grid mapping and neighborhoods -/

lemma num_pos (n : ℤ) : num (pos n).1 (pos n).2 = n := by
  simp only [num, pos]
  omega

lemma pos_num (r c : ℤ) (h1 : 1 ≤ r) (h2 : r ≤ 10) : pos (num r c) = (r, c) := by
  simp only [num, pos, Prod.mk.injEq]
  constructor <;> omega

lemma pos_row_range (n : ℤ) : 1 ≤ (pos n).1 ∧ (pos n).1 ≤ 10 := by
  simp only [pos]
  omega

lemma pos_col_range (n : ℤ) (h1 : 1 ≤ n) (h2 : n ≤ 49) : 1 ≤ (pos n).2 ∧ (pos n).2 ≤ 5 := by
  simp only [pos]
  omega

lemma chebyshev_torus_comm (a b : ℤ × ℤ) : chebyshev_torus a b = chebyshev_torus b a := by
  simp only [chebyshev_torus, abs_sub_comm]

lemma mem_neighborhood_wrap (seed radius m : ℤ) :
    m ∈ neighborhood seed radius true ↔
      (1 ≤ m ∧ m ≤ 49) ∧ chebyshev_torus (pos seed) (pos m) ≤ radius := by
  simp [neighborhood, Finset.mem_filter, Finset.mem_Icc]

lemma mem_neighborhood_clip (seed radius m : ℤ) (hm1 : 1 ≤ m) (hm2 : m ≤ 49) :
    m ∈ neighborhood seed radius false ↔
      ((pos seed).1 - radius ≤ (pos m).1 ∧ (pos m).1 ≤ (pos seed).1 + radius ∧
       (pos seed).2 - radius ≤ (pos m).2 ∧ (pos m).2 ≤ (pos seed).2 + radius) := by
  simp only [neighborhood, if_neg Bool.false_ne_true, Finset.mem_filter, Finset.mem_image,
    Finset.mem_product, Finset.mem_Icc, ROWS, COLS]
  constructor
  · rintro ⟨⟨⟨rr, cc⟩, ⟨⟨hr1, hr2⟩, hc1, hc2⟩, heq⟩, -⟩
    have hrr1 : 1 ≤ rr := le_trans (le_max_left _ _) hr1
    have hrr2 : rr ≤ 10 := le_trans hr2 (min_le_left _ _)
    have hpm : pos m = (rr, cc) := by
      rw [← heq]
      exact pos_num rr cc hrr1 hrr2
    rw [hpm]
    simp only [max_le_iff, le_min_iff] at hr1 hr2 hc1 hc2
    exact ⟨hr1.2, hr2.2, hc1.2, hc2.2⟩
  · rintro ⟨h1, h2, h3, h4⟩
    have hrow := pos_row_range m
    have hcol := pos_col_range m hm1 hm2
    refine ⟨⟨pos m, ⟨⟨?_, ?_⟩, ?_, ?_⟩, num_pos m⟩, hm1, hm2⟩
    · exact max_le hrow.1 h1
    · exact le_min hrow.2 h2
    · exact max_le hcol.1 h3
    · exact le_min hcol.2 h4

lemma mem_neighborhood_valid (seed radius : ℤ) (wrap : Bool) (m : ℤ)
    (h : m ∈ neighborhood seed radius wrap) : 1 ≤ m ∧ m ≤ 49 := by
  cases wrap <;> simp [neighborhood, Finset.mem_filter, Finset.mem_Icc] at h <;> tauto

/-! ### Claim theorems -/

/-- Claim C4: for every n in [1,49], `number(position(n)) = n`, the row of
`position(n)` is in [1,10], the column is in [1,5], and the number-to-position
mapping is injective over the 49-cell domain. -/
theorem grid_roundtrip (n : ℤ) (hn : n ∈ Finset.Icc (1 : ℤ) 49) :
    num (pos n).1 (pos n).2 = n ∧
    (1 ≤ (pos n).1 ∧ (pos n).1 ≤ 10) ∧ (1 ≤ (pos n).2 ∧ (pos n).2 ≤ 5) ∧
    ∀ m ∈ Finset.Icc (1 : ℤ) 49, pos m = pos n → m = n := by
  simp only [Finset.mem_Icc] at hn
  refine ⟨num_pos n, pos_row_range n, pos_col_range n hn.1 hn.2, ?_⟩
  intro m _ h
  calc m = num (pos m).1 (pos m).2 := (num_pos m).symm
    _ = num (pos n).1 (pos n).2 := by rw [h]
    _ = n := num_pos n

/-- Witness for C4 at n = 7. -/
theorem grid_roundtrip_witness :
    num (pos 7).1 (pos 7).2 = 7 ∧
    (1 ≤ (pos 7).1 ∧ (pos 7).1 ≤ 10) ∧ (1 ≤ (pos 7).2 ∧ (pos 7).2 ≤ 5) ∧
    ∀ m ∈ Finset.Icc (1 : ℤ) 49, pos m = pos 7 → m = 7 :=
  grid_roundtrip 7 (by decide)

/-- Claim C2: in wrap mode, for a valid seed and a valid m, membership of m in
`neighborhood(seed, radius, wrap=true)` holds exactly when
max(min(|Δrow|, 10−|Δrow|), min(|Δcol|, 5−|Δcol|)) ≤ radius, and 50 is never a
member (only the 49 valid numbers are tested). -/
theorem wrap_membership (seed radius m : ℤ) (_hs : seed ∈ Finset.Icc (1 : ℤ) 49)
    (hm : m ∈ Finset.Icc (1 : ℤ) 49) :
    (m ∈ neighborhood seed radius true ↔
      max (min |(pos seed).1 - (pos m).1| (10 - |(pos seed).1 - (pos m).1|))
          (min |(pos seed).2 - (pos m).2| (5 - |(pos seed).2 - (pos m).2|)) ≤ radius) ∧
    (50 : ℤ) ∉ neighborhood seed radius true := by
  simp only [Finset.mem_Icc] at hm
  constructor
  · rw [mem_neighborhood_wrap]
    simp [chebyshev_torus, ROWS, COLS, hm.1, hm.2]
  · intro h
    have := (mem_neighborhood_valid seed radius true 50 h).2
    norm_num at this

/-- Witness for C2: 2 lies in the wrap neighborhood of 1 at radius 1. -/
theorem wrap_membership_witness : (2 : ℤ) ∈ neighborhood 1 1 true :=
  (wrap_membership 1 1 2 (by decide) (by decide)).1.mpr (by decide)

/-- Claim C3: in non-wrap mode the neighborhood of a valid seed equals the set
of valid numbers whose position lies in the rectangle of rows
[row−radius, row+radius] ∩ [1,10] and columns [col−radius, col+radius] ∩ [1,5]
around the seed's position; in particular
neighborhood(1, 1, wrap=false) = {1, 2, 11, 12}. -/
theorem clip_neighborhood_eq (seed radius : ℤ) (_hs : seed ∈ Finset.Icc (1 : ℤ) 49) :
    (neighborhood seed radius false =
      (Finset.Icc (1 : ℤ) 49).filter fun m =>
        max 1 ((pos seed).1 - radius) ≤ (pos m).1 ∧ (pos m).1 ≤ min 10 ((pos seed).1 + radius) ∧
        max 1 ((pos seed).2 - radius) ≤ (pos m).2 ∧ (pos m).2 ≤ min 5 ((pos seed).2 + radius)) ∧
    neighborhood 1 1 false = {1, 2, 11, 12} := by
  refine ⟨?_, by decide⟩
  ext m
  simp only [Finset.mem_filter, Finset.mem_Icc, max_le_iff, le_min_iff]
  constructor
  · intro h
    have hm := mem_neighborhood_valid seed radius false m h
    rw [mem_neighborhood_clip seed radius m hm.1 hm.2] at h
    have hrow := pos_row_range m
    have hcol := pos_col_range m hm.1 hm.2
    exact ⟨hm, ⟨hrow.1, h.1⟩, ⟨hrow.2, h.2.1⟩, ⟨hcol.1, h.2.2.1⟩, hcol.2, h.2.2.2⟩
  · rintro ⟨hm, h1, h2, h3, h4⟩
    rw [mem_neighborhood_clip seed radius m hm.1 hm.2]
    exact ⟨h1.2, h2.2, h3.2, h4.2⟩

/-- Witness for C3 at seed 1 (a valid seed). -/
theorem clip_neighborhood_witness : neighborhood 1 1 false = {1, 2, 11, 12} :=
  (clip_neighborhood_eq 1 1 (by decide)).2

/-- Claim C7: for valid numbers a and b, any radius, and either wrap setting,
b lies in the neighborhood of a exactly when a lies in the neighborhood of b. -/
theorem neighborhood_symm (a b radius : ℤ) (wrap : Bool)
    (ha : a ∈ Finset.Icc (1 : ℤ) 49) (hb : b ∈ Finset.Icc (1 : ℤ) 49) :
    b ∈ neighborhood a radius wrap ↔ a ∈ neighborhood b radius wrap := by
  simp only [Finset.mem_Icc] at ha hb
  cases wrap
  · rw [mem_neighborhood_clip a radius b hb.1 hb.2, mem_neighborhood_clip b radius a ha.1 ha.2]
    omega
  · rw [mem_neighborhood_wrap, mem_neighborhood_wrap, chebyshev_torus_comm]
    tauto

/-- Witness for C7 at a = 1, b = 2, radius 1, wrap mode. -/
theorem neighborhood_symm_witness :
    (2 : ℤ) ∈ neighborhood 1 1 true ↔ (1 : ℤ) ∈ neighborhood 2 1 true :=
  neighborhood_symm 1 2 1 true (by decide) (by decide)

/-- Claim C5: with exclude_center set, the union neighborhood is disjoint from
the seed set — every seed is removed from the whole union, including a seed
lying in another seed's neighborhood. -/
theorem exclusion_disjoint (seeds : List ℤ) (radius : ℤ) (wrap : Bool) :
    union_neighborhood seeds radius wrap true ∩ seeds.toFinset = ∅ := by
  ext x
  simp [union_neighborhood, Finset.mem_sdiff]

/-- Claim C1, counterexample to the stated decimal: at a pair with K = 10 and
n = 7 the variance is 7·(10/49)·(39/49)·(42/48) = 195/196 ≈ 0.9949, which is
not 0.9820 to four decimal places. -/
theorem pair_stats_decimal_counterexample :
    (pair_stats [1, 4] [1, 2, 3, 4, 5, 6, 7] 1 false false).U_size = 10 ∧
    ([1, 2, 3, 4, 5, 6, 7] : List ℤ).length = 7 ∧
    (pair_stats [1, 4] [1, 2, 3, 4, 5, 6, 7] 1 false false).var = 195 / 196 ∧
    ¬ |(195 : ℚ) / 196 - 9820 / 10000| < 1 / 10000 := by
  have h : (union_neighborhood [1, 4] 1 false false).card = 10 := by decide
  refine ⟨by decide, by decide, ?_, by rw [abs_sub_lt_iff]; norm_num⟩
  simp [pair_stats, h, POP_SIZE]
  norm_num

/-- Claim C1 (amended): for every pair, with N = 49, K the union size and
n the current draw's number count, `pair_stats` returns
expected_hits = n·K/N and variance_hits = n·(K/N)·(1−K/N)·((N−n)/(N−1));
for K = 10, n = 7 this gives expected_hits = 10/7 ≈ 1.4286 and
variance_hits = 195/196 ≈ 0.9949 (four decimal places). -/
theorem pair_stats_hypergeometric :
    (∀ (prev curr : List ℤ) (radius : ℤ) (wrap exclude_center : Bool),
      (pair_stats prev curr radius wrap exclude_center).exp =
        (curr.length : ℚ) * ((union_neighborhood prev radius wrap exclude_center).card : ℚ) / 49 ∧
      (pair_stats prev curr radius wrap exclude_center).var =
        (curr.length : ℚ) * (((union_neighborhood prev radius wrap exclude_center).card : ℚ) / 49) *
          (1 - ((union_neighborhood prev radius wrap exclude_center).card : ℚ) / 49) *
          ((49 - (curr.length : ℚ)) / 48)) ∧
    (pair_stats [1, 4] [1, 2, 3, 4, 5, 6, 7] 1 false false).U_size = 10 ∧
    (pair_stats [1, 4] [1, 2, 3, 4, 5, 6, 7] 1 false false).exp = 10 / 7 ∧
    (pair_stats [1, 4] [1, 2, 3, 4, 5, 6, 7] 1 false false).var = 195 / 196 ∧
    |(10 : ℚ) / 7 - 14286 / 10000| < 1 / 10000 ∧
    |(195 : ℚ) / 196 - 9949 / 10000| < 1 / 10000 := by
  have h : (union_neighborhood [1, 4] 1 false false).card = 10 := by decide
  refine ⟨fun prev curr radius wrap exclude_center => ⟨?_, ?_⟩, by decide, ?_, ?_,
    by rw [abs_sub_lt_iff]; norm_num, by rw [abs_sub_lt_iff]; norm_num⟩
  · simp [pair_stats, POP_SIZE]
    ring
  · simp [pair_stats, POP_SIZE]
    norm_num
  · simp [pair_stats, h, POP_SIZE]
    norm_num
  · simp [pair_stats, h, POP_SIZE]
    norm_num

/-- Claim C6: the aggregated z-score equals
(total_hits − total_expected) / sqrt(total_variance) whenever the total
variance is positive, and is the undefined value (`none`, the model of the
script's nan) otherwise — never 0 or any other coerced number. -/
theorem zScore_spec (ps : List PairResult) :
    (0 < total_var ps →
      zScore ps = some (((total_hits ps : ℝ) - ((total_exp ps : ℚ) : ℝ)) /
        Real.sqrt ((total_var ps : ℚ) : ℝ))) ∧
    (total_var ps ≤ 0 → zScore ps = none) := by
  constructor
  · intro h
    rw [zScore, if_pos h]
  · intro h
    rw [zScore, if_neg (not_lt.mpr h)]

/-- Witness for C6: a single pair result with variance 3/2 yields the defined
z-score (4 − 3)/sqrt(3/2), and an empty list (total variance 0) yields the
undefined value. -/
theorem zScore_witness :
    zScore [⟨10, 4, 3, 3 / 2⟩] = some ((4 - 3) / Real.sqrt (3 / 2)) ∧
    zScore ([] : List PairResult) = none := by
  constructor
  · rw [(zScore_spec [⟨10, 4, 3, 3 / 2⟩]).1 (by norm_num [total_var])]
    norm_num [total_hits, total_exp, total_var]
  · exact (zScore_spec ([] : List PairResult)).2 (by norm_num [total_var])

/-- Claim C8, counterexample: the code performs no range validation, so for the
out-of-range input 50 the position mapping and the neighborhood computation
both return a result (no InvalidNumber error exists in the program). -/
theorem invalid_number_counterexample :
    pos 50 = (10, 5) ∧ neighborhood 50 1 false = {39, 40, 49} := by decide

/-- Claim C8 (amended): `pos` and `neighborhood` are total and perform no range
check; an out-of-range input is not clamped into [1,49] (its position differs
from every valid number's position) and the result is computed by the same
arithmetic, e.g. pos(0) = (10, 0) and neighborhood(0, 1, false) = {9, 10}. -/
theorem out_of_range_total :
    pos 0 = (10, 0) ∧ neighborhood 0 1 false = {9, 10} ∧
    ∀ n ∈ Finset.Icc (1 : ℤ) 49, pos 50 ≠ pos n ∧ pos 0 ≠ pos n := by decide

/-- Witness for the amended C8 at n = 7. -/
theorem out_of_range_witness : pos 50 ≠ pos 7 ∧ pos 0 ≠ pos 7 :=
  out_of_range_total.2.2 7 (by decide)

/-- Claim C9: with fewer than two draw records the pipeline reports
insufficient data and returns no summaries — no aggregation runs, so no
division by a zero pair count can occur. -/
theorem insufficient_data (draws : List (List ℤ)) (h : draws.length < 2) :
    runPipeline draws = none := by
  rw [runPipeline, if_pos h]

/-- Witness for C9 on a single draw record. -/
theorem insufficient_data_witness : runPipeline [[1, 2, 3]] = none :=
  insufficient_data [[1, 2, 3]] (by norm_num)

/-- Claim C10: for every valid seed, the wrap-mode radius-2 neighborhood spans
all 5 columns, and its size is 24 when the seed's row is in {1, 2, 8, 9, 10}
(the 5-row toroidal band then contains row 10, whose column-5 cell would be
the invalid number 50) and 25 otherwise. -/
theorem wrap_radius2_size : ∀ s ∈ Finset.Icc (1 : ℤ) 49,
    (neighborhood s 2 true).image (fun m => (pos m).2) = Finset.Icc 1 5 ∧
    (neighborhood s 2 true).card =
      (if (pos s).1 ∈ ({1, 2, 8, 9, 10} : Finset ℤ) then 24 else 25) := by decide

/-- Witness for C10 at seed 1 (row 1, size 24). -/
theorem wrap_radius2_witness :
    (neighborhood 1 2 true).image (fun m => (pos m).2) = Finset.Icc 1 5 ∧
    (neighborhood 1 2 true).card =
      (if (pos 1).1 ∈ ({1, 2, 8, 9, 10} : Finset ℤ) then 24 else 25) :=
  wrap_radius2_size 1 (by decide)

end MarkSix
